import Mathlib

/-!
# jenkins-job-cli: the root command (`cmd/root.go`)

A shallow embedding of the functions of `cmd/root.go`:

* `preRunE`  : the pre-run check that a Jenkins environment can be resolved;
* `Execute`  : the mapping of the root command's outcome to output and exit status;
* `getTime`  : the clock in whole milliseconds;
* `runCompletionZsh` : the generator of the zsh completion script.

Go values are embedded as follows.  A Go `error` is `Option GoError` (`none` is `nil`).
Go strings and byte slices are Lean strings.  Calls into package `jj`, into `cobra` and
into an `io.Writer` are explicit arguments of the embedded functions.
-/

namespace JenkinsJobCli

/-! ## Errors -/

/-- A non-nil Go error value.  `ErrNoEnv` is the sentinel `jj.ErrNoEnv`; `errorString s` is
the value built by `errors.New(s)`; `other` stands for every other error value that can
reach this file. -/
inductive GoError where
  | ErrNoEnv : GoError
  | errorString (s : String) : GoError
  | other (id : Nat) (s : String) : GoError
  deriving DecidableEq, Repr

/-- The Go call `errors.New(s)`. -/
def errorsNew (s : String) : GoError := GoError.errorString s

/-- The method `Error()` of an error value.  The text of the sentinel `jj.ErrNoEnv` is
declared in package `jj`; it is the argument `noEnvText`. -/
def GoError.Error (noEnvText : String) : GoError → String
  | GoError.ErrNoEnv => noEnvText
  | GoError.errorString s => s
  | GoError.other _ s => s

/-! ## Package `jj` as seen from `cmd/root.go` -/

/-- The two functions of package `jj` that `preRunE` calls: `jj.GetEnvs()` gives the list
of configured environments, `jj.GetEnv(name)` gives an error and an environment. -/
structure JJ (Env : Type) where
  GetEnvs : List Env
  GetEnv : String → Option GoError × Env

/-- A call into package `jj`, recorded in the order in which it is made. -/
inductive JJCall where
  | GetEnvs : JJCall
  | GetEnv (name : String) : JJCall
  deriving DecidableEq, Repr

/-- The message of the error returned when no environment is configured. -/
def noSettingsMsg : String :=
  "There is no any jenkins settings. For this, use 'jj set NAME' command."

/-- The Go expression `fmt.Sprintf("Jenkins '%s' is not found", name)`. -/
def notFoundMsg (name : String) : String :=
  "Jenkins '" ++ name ++ "' is not found"

/-- The function `preRunE(cmd, args)`.  `ENV` is the package-level variable holding the
requested environment name.  The result is the returned error together with the calls made
into package `jj`, in order. -/
def preRunE {Env Cmd : Type} (jj : JJ Env) (ENV : String) (_cmd : Cmd)
    (_args : List String) : Option GoError × List JJCall :=
  if jj.GetEnvs.length == 0 then
    (some (errorsNew noSettingsMsg), [JJCall.GetEnvs])
  else
    let r := jj.GetEnv ENV
    let err := r.1
    if err == some GoError.ErrNoEnv then
      (some (errorsNew (notFoundMsg ENV)), [JJCall.GetEnvs, JJCall.GetEnv ENV])
    else
      (err, [JJCall.GetEnvs, JJCall.GetEnv ENV])

/-! ## The environment registry behind `jj.GetEnvs` and `jj.GetEnv` -/

/-- Modelled from the spec: an environment of the registry (section 3), a named profile
with a base URL, credential material and the flag marking the default.  Package
`cmd/jj`, which declares the environments, is not among the sources. -/
structure Environment where
  name : String
  baseURL : String
  credential : String
  isDefault : Bool
  deriving DecidableEq, Repr

/-- The zero value of the environment type, which accompanies an error. -/
instance : Inhabited Environment := ⟨{ name := "", baseURL := "", credential := "", isDefault := false }⟩

/-- Modelled from the spec: the environment registry (sections 3 and 4.1) that package
`cmd/jj` implements behind `GetEnvs`, `GetEnv` and `ErrNoEnv`; that package is not among
the sources.  The registry lists the configured environments in insertion order.  Any list
of environments is a registry: which of them are marked default is left to the flags. -/
structure Registry where
  envs : List Environment

/-- Modelled from the spec: the function `jj.GetEnv` of the missing package `cmd/jj`, after
the contract of `resolve` in section 4.1.  A non-empty name gives the environment with that
name, and a miss is reported as `ErrNoEnv`; the empty name gives the environment marked
default, and when no environment is marked default that lookup misses as well. -/
def Registry.GetEnv (r : Registry) (name : String) : Option GoError × Environment :=
  let found :=
    if name ≠ "" then r.envs.find? (fun e => e.name == name)
    else r.envs.find? (fun e => e.isDefault)
  match found with
  | some e => (none, e)
  | none => (some GoError.ErrNoEnv, default)

/-- Modelled from the spec: package `jj` over a registry, `GetEnvs` being the list of the
configured environments (`list()` of section 4.1). -/
def Registry.toJJ (r : Registry) : JJ Environment where
  GetEnvs := r.envs
  GetEnv := r.GetEnv

/-! ## `Execute` -/

/-- The observable state of the process around `Execute`: what has been printed on standard
output, and the status passed to `os.Exit` if it has been called. -/
structure Process where
  stdout : String
  exited : Option Nat
  deriving DecidableEq, Repr

/-- The function `Execute()`.  `result` is what `rootCmd.Execute()` returned and `p` the
process state at that moment.  `fmt.Println(err)` prints `err.Error()` and a newline. -/
def Execute (noEnvText : String) (result : Option GoError) (p : Process) : Process :=
  match result with
  | some err => { stdout := p.stdout ++ (err.Error noEnvText ++ "\n"), exited := some 1 }
  | none => p

/-- The exit status of the process: the argument of `os.Exit` when it was called, and `0`
when `main` returns after `Execute` returned. -/
def exitStatus (p : Process) : Nat :=
  match p.exited with
  | some c => c
  | none => 0

/-! ## `getTime` -/

/-- The Go constant `time.Millisecond`, a duration in nanoseconds. -/
def Millisecond : Int := 1000000

/-- The function `getTime()`, as a function of the clock reading `time.Now().UnixNano()`.
Go's `/` on `int64` truncates toward zero. -/
def getTime (unixNano : Int) : Int :=
  Int.tdiv unixNano Millisecond

/-! ## `runCompletionZsh` -/

/-- An `io.Writer`: `Write` maps the writer's state and the bytes passed to the new state,
the number of bytes written and the error. -/
structure Writer (σ : Type) where
  Write : σ → String → σ × Nat × Option GoError

/-- The method `GenBashCompletion` of a `cobra` command, writing into a fresh
`bytes.Buffer`: the bytes the buffer holds afterwards and the returned error. -/
structure Cobra (Cmd : Type) where
  GenBashCompletion : Cmd → String × Option GoError

/-- What a run of `runCompletionZsh` leaves behind: the returned error and the state of the
writer `out`. -/
structure ZshRun (σ : Type) where
  err : Option GoError
  out : σ

/-- The local `zshHead` of `runCompletionZsh`. -/
def zshHead : String := "#compdef jj\n"

/-- The constant `defaultBoilerPlate`. -/
def defaultBoilerPlate : String :=
  "\n" ++
  "# Copyright 2016 The Kubernetes Authors.\n" ++
  "#\n" ++
  "# Licensed under the Apache License, Version 2.0 (the \"License\");\n" ++
  "# you may not use this file except in compliance with the License.\n" ++
  "# You may obtain a copy of the License at\n" ++
  "#\n" ++
  "#     http://www.apache.org/licenses/LICENSE-2.0\n" ++
  "#\n" ++
  "# Unless required by applicable law or agreed to in writing, software\n" ++
  "# distributed under the License is distributed on an \"AS IS\" BASIS,\n" ++
  "# WITHOUT WARRANTIES OR CONDITIONS OF ANY KIND, either express or implied.\n" ++
  "# See the License for the specific language governing permissions and\n" ++
  "# limitations under the License.\n"

/-- The local `zshInitialization` of `runCompletionZsh`. -/
def zshInitialization : String :=
  "\n" ++
  "__jj_bash_source() \x7b\n" ++
  "\talias shopt=':'\n" ++
  "\temulate -L sh\n" ++
  "\tsetopt kshglob noshglob braceexpand\n" ++
  "\tsource \"$@\"\n" ++
  "\x7d\n" ++
  "__jj_type() \x7b\n" ++
  "\t# -t is not supported by zsh\n" ++
  "\tif [ \"$1\" == \"-t\" ]; then\n" ++
  "\t\tshift\n" ++
  "\t\t# fake Bash 4 to disable \"complete -o nospace\". Instead\n" ++
  "\t\t# \"compopt +-o nospace\" is used in the code to toggle trailing\n" ++
  "\t\t# spaces. We don't support that, but leave trailing spaces on\n" ++
  "\t\t# all the time\n" ++
  "\t\tif [ \"$1\" = \"__jj_compopt\" ]; then\n" ++
  "\t\t\techo builtin\n" ++
  "\t\t\treturn 0\n" ++
  "\t\tfi\n" ++
  "\tfi\n" ++
  "\ttype \"$@\"\n" ++
  "\x7d\n" ++
  "__jj_compgen() \x7b\n" ++
  "\tlocal completions w\n" ++
  "\tcompletions=( $(compgen \"$@\") ) || return $?\n" ++
  "\t# filter by given word as prefix\n" ++
  "\twhile [[ \"$1\" = -* && \"$1\" != -- ]]; do\n" ++
  "\t\tshift\n" ++
  "\t\tshift\n" ++
  "\tdone\n" ++
  "\tif [[ \"$1\" == -- ]]; then\n" ++
  "\t\tshift\n" ++
  "\tfi\n" ++
  "\tfor w in \"$\x7bcompletions[@]\x7d\"; do\n" ++
  "\t\tif [[ \"$\x7bw\x7d\" = \"$1\"* ]]; then\n" ++
  "\t\t\techo \"$\x7bw\x7d\"\n" ++
  "\t\tfi\n" ++
  "\tdone\n" ++
  "\x7d\n" ++
  "__jj_compopt() \x7b\n" ++
  "\ttrue # don't do anything. Not supported by bashcompinit in zsh\n" ++
  "\x7d\n" ++
  "__jj_ltrim_colon_completions()\n" ++
  "\x7b\n" ++
  "\tif [[ \"$1\" == *:* && \"$COMP_WORDBREAKS\" == *:* ]]; then\n" ++
  "\t\t# Remove colon-word prefix from COMPREPLY items\n" ++
  "\t\tlocal colon_word=$\x7b1%$\x7b1##*:\x7d\x7d\n" ++
  "\t\tlocal i=$\x7b#COMPREPLY[*]\x7d\n" ++
  "\t\twhile [[ $((--i)) -ge 0 ]]; do\n" ++
  "\t\t\tCOMPREPLY[$i]=$\x7bCOMPREPLY[$i]#\"$colon_word\"\x7d\n" ++
  "\t\tdone\n" ++
  "\tfi\n" ++
  "\x7d\n" ++
  "__jj_get_comp_words_by_ref() \x7b\n" ++
  "\tcur=\"$\x7bCOMP_WORDS[COMP_CWORD]\x7d\"\n" ++
  "\tprev=\"$\x7bCOMP_WORDS[$\x7bCOMP_CWORD\x7d-1]\x7d\"\n" ++
  "\twords=(\"$\x7bCOMP_WORDS[@]\x7d\")\n" ++
  "\tcword=(\"$\x7bCOMP_CWORD[@]\x7d\")\n" ++
  "\x7d\n" ++
  "__jj_filedir() \x7b\n" ++
  "\t# Don't need to do anything here.\n" ++
  "\t# Otherwise we will get trailing space without \"compopt -o nospace\"\n" ++
  "\ttrue\n" ++
  "\x7d\n" ++
  "autoload -U +X bashcompinit && bashcompinit\n" ++
  "# use word boundary patterns for BSD or GNU sed\n" ++
  "LWORD='[[:<:]]'\n" ++
  "RWORD='[[:>:]]'\n" ++
  "if sed --help 2>&1 | grep -q 'GNU\\|BusyBox'; then\n" ++
  "\tLWORD='\\<'\n" ++
  "\tRWORD='\\>'\n" ++
  "fi\n" ++
  "__jj_convert_bash_to_zsh() \x7b\n" ++
  "\tsed \\\n" ++
  "\t-e 's/declare -F/whence -w/' \\\n" ++
  "\t-e 's/_get_comp_words_by_ref \"\\$@\"/_get_comp_words_by_ref \"\\$*\"/' \\\n" ++
  "\t-e 's/local \\([a-zA-Z0-9_]*\\)=/local \\1; \\1=/' \\\n" ++
  "\t-e 's/flags+=(\"\\(--.*\\)=\")/flags+=(\"\\1\"); two_word_flags+=(\"\\1\")/' \\\n" ++
  "\t-e 's/must_have_one_flag+=(\"\\(--.*\\)=\")/must_have_one_flag+=(\"\\1\")/' \\\n" ++
  "\t-e \"s/$\x7bLWORD\x7d_filedir$\x7bRWORD\x7d/__jj_filedir/g\" \\\n" ++
  "\t-e \"s/$\x7bLWORD\x7d_get_comp_words_by_ref$\x7bRWORD\x7d/__jj_get_comp_words_by_ref/g\" \\\n" ++
  "\t-e \"s/$\x7bLWORD\x7d__ltrim_colon_completions$\x7bRWORD\x7d/__jj_ltrim_colon_completions/g\" \\\n" ++
  "\t-e \"s/$\x7bLWORD\x7dcompgen$\x7bRWORD\x7d/__jj_compgen/g\" \\\n" ++
  "\t-e \"s/$\x7bLWORD\x7dcompopt$\x7bRWORD\x7d/__jj_compopt/g\" \\\n" ++
  "\t-e \"s/$\x7bLWORD\x7ddeclare$\x7bRWORD\x7d/builtin declare/g\" \\\n" ++
  "\t-e \"s/\\\\\\$(type$\x7bRWORD\x7d/\\$(__jj_type/g\" \\\n" ++
  "\t" ++
  "<<'BASH_COMPLETION_EOF'\n"

/-- The local `zshTail` of `runCompletionZsh`. -/
def zshTail : String :=
  "\nBASH_COMPLETION_EOF\n" ++
    ("\x7d\n" ++
     "__jj_bash_source <(__jj_convert_bash_to_zsh)\n")

/-- The boilerplate that is written: `defaultBoilerPlate` when `len(boilerPlate) == 0`. -/
def effectiveBoilerPlate (boilerPlate : String) : String :=
  if boilerPlate.utf8ByteSize == 0 then defaultBoilerPlate else boilerPlate

/-- The function `runCompletionZsh(out, boilerPlate, root)`; `s0` is the state of `out`
when it is called. -/
def runCompletionZsh {σ Cmd : Type} (w : Writer σ) (cobra : Cobra Cmd) (s0 : σ)
    (boilerPlate : String) (root : Cmd) : ZshRun σ :=
  let s1 := (w.Write s0 zshHead).1
  let boilerPlate := effectiveBoilerPlate boilerPlate
  let r2 := w.Write s1 boilerPlate
  match r2.2.2 with
  | some err => { err := some err, out := r2.1 }
  | none =>
    let s3 := (w.Write r2.1 zshInitialization).1
    let buf := (cobra.GenBashCompletion root).1
    let s4 := (w.Write s3 buf).1
    let s5 := (w.Write s4 zshTail).1
    { err := none, out := s5 }

/-- The state of a writer after it has been handed the chunks `ps`, one call of `Write`
each, in order. -/
def Writer.feed {σ : Type} (w : Writer σ) (s : σ) (ps : List String) : σ :=
  ps.foldl (fun st p => (w.Write st p).1) s

/-- The writer `w` with a record: the state is paired with the arguments of the calls of
`Write` received so far, in order; the answers are those of `w`. -/
def Writer.recording {σ : Type} (w : Writer σ) : Writer (σ × List String) where
  Write := fun s p => (((w.Write s.1 p).1, s.2 ++ [p]), (w.Write s.1 p).2)

/-- The arguments of the calls of `Write` that the writer receives during a run of
`runCompletionZsh`, in order: the record kept by `w.recording`, started empty. -/
def zshWrites {σ Cmd : Type} (w : Writer σ) (cobra : Cobra Cmd) (s0 : σ)
    (boilerPlate : String) (root : Cmd) : List String :=
  (runCompletionZsh w.recording cobra (s0, []) boilerPlate root).out.2

/-- The bytes handed to the writer during a run of `runCompletionZsh`, in order. -/
def zshWritten {σ Cmd : Type} (w : Writer σ) (cobra : Cobra Cmd) (s0 : σ)
    (boilerPlate : String) (root : Cmd) : String :=
  String.join (zshWrites w cobra s0 boilerPlate root)

/-- A writer all of whose writes succeed: every call of `Write` takes all the bytes and
returns no error. -/
def Writer.allSucceed {σ : Type} (w : Writer σ) : Prop :=
  ∀ (s : σ) (p : String), (w.Write s p).2 = (p.utf8ByteSize, none)

/-- A `bytes.Buffer` as a writer: the state is the content, `Write` appends. -/
def bufferWriter : Writer String where
  Write := fun s p => (s ++ p, p.utf8ByteSize, none)

/-- A writer that accepts up to `limit` bytes in total and fails afterwards. -/
def limitedWriter (limit : Nat) : Writer String where
  Write := fun s p =>
    if s.utf8ByteSize + p.utf8ByteSize ≤ limit then (s ++ p, p.utf8ByteSize, none)
    else (s, 0, some (GoError.other 0 "short write"))

/-! ## Sample inputs -/

/-- An empty configuration: no environment is configured and every lookup misses. -/
def emptyJJ : JJ Environment where
  GetEnvs := []
  GetEnv := fun _ => (some GoError.ErrNoEnv, default)

/-- A registry with the environments `dev` (the default) and `prod`. -/
def devProdRegistry : Registry where
  envs :=
    [{ name := "dev", baseURL := "http://dev:8080", credential := "u:t", isDefault := true },
     { name := "prod", baseURL := "http://prod:8080", credential := "u:t", isDefault := false }]

/-- A registry with the single environment `dev`, which is not marked default. -/
def noDefaultRegistry : Registry where
  envs :=
    [{ name := "dev", baseURL := "http://dev:8080", credential := "u:t", isDefault := false }]

/-- A configuration with one environment whose lookups fail for a reason other than a
miss. -/
def brokenJJ : JJ Environment where
  GetEnvs := [{ name := "dev", baseURL := "http://dev:8080", credential := "", isDefault := true }]
  GetEnv := fun _ => (some (GoError.other 7 "cannot decrypt credentials"), default)

/-- A stand-in for `cobra`: the generated bash completion is a fixed one-line script. -/
def sampleCobra : Cobra Unit where
  GenBashCompletion := fun _ => ("complete -F __start_jj jj\n", none)

/-- A stand-in for `cobra` whose generation fails after a partial script. -/
def failingCobra : Cobra Unit where
  GenBashCompletion := fun _ => ("complete", some (GoError.other 3 "generation failed"))

/-! ## Auxiliary facts -/

theorem notFoundMsg_ne_noSettingsMsg (name : String) : notFoundMsg name ≠ noSettingsMsg := by
  intro h
  have h2 := congrArg (fun s : String => s.data.head?) h
  simp [notFoundMsg, noSettingsMsg, String.data_append] at h2

theorem length_beq_zero_of_ne_nil {α : Type} (l : List α) (h : l ≠ []) :
    (l.length == 0) = false := by
  cases l with
  | nil => exact absurd rfl h
  | cons a t => rfl

theorem preRunE_of_ne_nil {Env Cmd : Type} (jj : JJ Env) (ENV : String) (cmd : Cmd)
    (args : List String) (h : jj.GetEnvs ≠ []) :
    preRunE jj ENV cmd args =
      if (jj.GetEnv ENV).1 = some GoError.ErrNoEnv then
        (some (errorsNew (notFoundMsg ENV)), [JJCall.GetEnvs, JJCall.GetEnv ENV])
      else ((jj.GetEnv ENV).1, [JJCall.GetEnvs, JJCall.GetEnv ENV]) := by
  unfold preRunE
  simp [length_beq_zero_of_ne_nil _ h]

/-! ## `preRunE` -/

/-- C1: when `jj.GetEnvs()` is empty, `preRunE` fails with the error whose message is
"There is no any jenkins settings. For this, use 'jj set NAME' command.", for every
requested name and whatever `jj.GetEnv` would answer; the only call made into package `jj`
is `GetEnvs`, so the named lookup is not consulted and the result is not the not-found
error. -/
theorem preRunE_empty_registry {Env Cmd : Type} (jj : JJ Env) (ENV : String) (cmd : Cmd)
    (args : List String) (h : jj.GetEnvs = []) :
    (preRunE jj ENV cmd args).1 =
        some (errorsNew "There is no any jenkins settings. For this, use 'jj set NAME' command.")
      ∧ (preRunE jj ENV cmd args).2 = [JJCall.GetEnvs]
      ∧ (∀ name, JJCall.GetEnv name ∉ (preRunE jj ENV cmd args).2)
      ∧ (preRunE jj ENV cmd args).1 ≠ some (errorsNew (notFoundMsg ENV)) := by
  have hr : preRunE jj ENV cmd args = (some (errorsNew noSettingsMsg), [JJCall.GetEnvs]) := by
    unfold preRunE
    simp [h]
  rw [hr]
  refine ⟨rfl, rfl, ?_, ?_⟩
  · intro name hmem
    simp at hmem
  · intro heq
    simp only [errorsNew, Option.some.injEq, GoError.errorString.injEq] at heq
    exact notFoundMsg_ne_noSettingsMsg ENV heq.symm

/-- C2: when the list of configured environments is non-empty and `jj.GetEnv(ENV)` reports
`jj.ErrNoEnv`, `preRunE` fails with the error whose message is exactly
"Jenkins '" ++ ENV ++ "' is not found", which differs from the empty-registry error. -/
theorem preRunE_not_found {Env Cmd : Type} (jj : JJ Env) (ENV : String) (cmd : Cmd)
    (args : List String) (hne : jj.GetEnvs ≠ [])
    (hmiss : (jj.GetEnv ENV).1 = some GoError.ErrNoEnv) :
    (preRunE jj ENV cmd args).1 = some (errorsNew ("Jenkins '" ++ ENV ++ "' is not found"))
      ∧ (∀ t e, (preRunE jj ENV cmd args).1 = some e →
          GoError.Error t e = "Jenkins '" ++ ENV ++ "' is not found")
      ∧ (preRunE jj ENV cmd args).1 ≠ some (errorsNew noSettingsMsg) := by
  have hr : (preRunE jj ENV cmd args).1 = some (errorsNew (notFoundMsg ENV)) := by
    rw [preRunE_of_ne_nil jj ENV cmd args hne, if_pos hmiss]
  rw [hr]
  refine ⟨rfl, ?_, ?_⟩
  · intro t e he
    simp only [Option.some.injEq] at he
    rw [← he]
    rfl
  · intro heq
    simp only [errorsNew, Option.some.injEq, GoError.errorString.injEq] at heq
    exact notFoundMsg_ne_noSettingsMsg ENV heq

/-- C5: when the list of configured environments is non-empty and `jj.GetEnv(ENV)` reports
an error `e` other than `jj.ErrNoEnv`, `preRunE` returns exactly `e`. -/
theorem preRunE_passes_lookup_error {Env Cmd : Type} (jj : JJ Env) (ENV : String)
    (cmd : Cmd) (args : List String) (e : GoError) (hne : jj.GetEnvs ≠ [])
    (herr : (jj.GetEnv ENV).1 = some e) (he : e ≠ GoError.ErrNoEnv) :
    (preRunE jj ENV cmd args).1 = some e := by
  have hn : ¬ (jj.GetEnv ENV).1 = some GoError.ErrNoEnv := by
    rw [herr]
    intro h
    exact he (Option.some.inj h)
  rw [preRunE_of_ne_nil jj ENV cmd args hne, if_neg hn]
  exact herr

/-- C6: `preRunE` returns no error if and only if the list of configured environments is
non-empty and `jj.GetEnv(ENV)` reports no error; the result is the same for every `cmd` and
`args`. -/
theorem preRunE_ok_iff {Env Cmd : Type} (jj : JJ Env) (ENV : String) (cmd : Cmd)
    (args : List String) :
    ((preRunE jj ENV cmd args).1 = none ↔ (jj.GetEnvs ≠ [] ∧ (jj.GetEnv ENV).1 = none))
      ∧ (∀ (cmd2 : Cmd) (args2 : List String),
          preRunE jj ENV cmd2 args2 = preRunE jj ENV cmd args) := by
  refine ⟨?_, fun _ _ => rfl⟩
  by_cases hne : jj.GetEnvs = []
  · have hr : preRunE jj ENV cmd args = (some (errorsNew noSettingsMsg), [JJCall.GetEnvs]) := by
      unfold preRunE
      simp [hne]
    rw [hr]
    simp [hne]
  · rw [preRunE_of_ne_nil jj ENV cmd args hne]
    by_cases hmiss : (jj.GetEnv ENV).1 = some GoError.ErrNoEnv
    · rw [if_pos hmiss]
      simp [hne, hmiss]
    · rw [if_neg hmiss]
      simp [hne]

/-- C1 at the empty configuration and the requested name `prod`. -/
theorem preRunE_empty_registry_witness :
    emptyJJ.GetEnvs = []
      ∧ (preRunE emptyJJ "prod" () ["run", "app-build"]).1 =
          some (errorsNew "There is no any jenkins settings. For this, use 'jj set NAME' command.")
      ∧ (preRunE emptyJJ "prod" () ["run", "app-build"]).2 = [JJCall.GetEnvs] :=
  ⟨rfl, (preRunE_empty_registry emptyJJ "prod" () ["run", "app-build"] rfl).1,
    (preRunE_empty_registry emptyJJ "prod" () ["run", "app-build"] rfl).2.1⟩

/-- C2 at the registry with `dev` and `prod` and the requested name `stage`. -/
theorem preRunE_not_found_witness :
    devProdRegistry.toJJ.GetEnvs ≠ []
      ∧ (devProdRegistry.toJJ.GetEnv "stage").1 = some GoError.ErrNoEnv
      ∧ (preRunE devProdRegistry.toJJ "stage" () []).1 =
          some (errorsNew ("Jenkins '" ++ "stage" ++ "' is not found")) :=
  ⟨by decide, by decide,
    (preRunE_not_found devProdRegistry.toJJ "stage" () [] (by decide) (by decide)).1⟩

/-- C5 at a configuration whose lookup fails with an error other than `jj.ErrNoEnv`. -/
theorem preRunE_passes_lookup_error_witness :
    brokenJJ.GetEnvs ≠ []
      ∧ (brokenJJ.GetEnv "dev").1 = some (GoError.other 7 "cannot decrypt credentials")
      ∧ GoError.other 7 "cannot decrypt credentials" ≠ GoError.ErrNoEnv
      ∧ (preRunE brokenJJ "dev" () []).1 = some (GoError.other 7 "cannot decrypt credentials") :=
  ⟨by decide, rfl, by decide,
    preRunE_passes_lookup_error brokenJJ "dev" () [] (GoError.other 7 "cannot decrypt credentials")
      (by decide) rfl (by decide)⟩

theorem Registry.find_default_isSome (r : Registry)
    (h : ∃ e, e ∈ r.envs ∧ e.isDefault = true) :
    ∃ e, r.envs.find? (fun e => e.isDefault) = some e := by
  obtain ⟨d, hd, hflag⟩ := h
  cases hf : r.envs.find? (fun e => e.isDefault) with
  | some e => exact ⟨e, rfl⟩
  | none =>
    have hall := List.find?_eq_none.mp hf
    exact absurd hflag (hall d hd)

/-- C3, as the registry allows it to fail: over the non-empty registry whose only
environment `dev` is not marked default, `preRunE` called with the empty environment name
returns the not-found error, so it does not succeed over every non-empty registry. -/
theorem preRunE_default_fails_without_default :
    noDefaultRegistry.envs ≠ []
      ∧ (preRunE noDefaultRegistry.toJJ "" () ([] : List String)).1 =
          some (errorsNew "Jenkins '' is not found")
      ∧ ¬ (∀ r : Registry, r.envs ≠ [] →
            (preRunE r.toJJ "" () ([] : List String)).1 = none) := by
  have hv : (preRunE noDefaultRegistry.toJJ "" () ([] : List String)).1 =
      some (errorsNew "Jenkins '' is not found") := by decide
  refine ⟨by decide, hv, ?_⟩
  intro hall
  have hnone := hall noDefaultRegistry (by decide)
  rw [hv] at hnone
  exact absurd hnone (by simp)

/-- C3, amended: over every non-empty registry in which some environment is marked default,
`preRunE` called with the empty environment name returns no error. -/
theorem preRunE_default_succeeds {Cmd : Type} (r : Registry) (cmd : Cmd) (args : List String)
    (hne : r.envs ≠ []) (hdef : ∃ e, e ∈ r.envs ∧ e.isDefault = true) :
    (preRunE r.toJJ "" cmd args).1 = none := by
  obtain ⟨e, he⟩ := Registry.find_default_isSome r hdef
  have hg : (r.toJJ.GetEnv "").1 = none := by
    show (r.GetEnv "").1 = none
    unfold Registry.GetEnv
    simp [he]
  have hne2 : r.toJJ.GetEnvs ≠ [] := hne
  rw [preRunE_of_ne_nil r.toJJ "" cmd args hne2, hg]
  simp

/-- C3, amended, at the registry with `dev` (the default) and `prod`. -/
theorem preRunE_default_succeeds_witness :
    devProdRegistry.envs ≠ []
      ∧ (∃ e, e ∈ devProdRegistry.envs ∧ e.isDefault = true)
      ∧ (preRunE devProdRegistry.toJJ "" () ["get"]).1 = none :=
  ⟨by decide, ⟨_, List.mem_cons_self _ _, rfl⟩,
    preRunE_default_succeeds devProdRegistry () ["get"] (by decide)
      ⟨_, List.mem_cons_self _ _, rfl⟩⟩

/-! ## `Execute` -/

/-- C4: in a running process, when `rootCmd.Execute()` returns an error, `Execute` prints
that error once on standard output, followed by a newline, and exits with status 1; when it
returns no error, `Execute` prints nothing and does not call exit.  The exit status is
non-zero if and only if the command failed. -/
theorem Execute_exit_status (noEnvText : String) (result : Option GoError) (p : Process)
    (hrun : p.exited = none) :
    (∀ err, result = some err →
        Execute noEnvText result p =
          { stdout := p.stdout ++ (err.Error noEnvText ++ "\n"), exited := some 1 }
        ∧ exitStatus (Execute noEnvText result p) = 1)
      ∧ (result = none → Execute noEnvText result p = p
          ∧ exitStatus (Execute noEnvText result p) = 0)
      ∧ (exitStatus (Execute noEnvText result p) ≠ 0 ↔ result ≠ none) := by
  cases result with
  | none =>
    simp [Execute, exitStatus, hrun]
  | some e =>
    simp [Execute, exitStatus]

/-- C4 at a command failing with the not-found error for `prod`. -/
theorem Execute_exit_status_witness :
    Execute "no env" (some (errorsNew (notFoundMsg "prod"))) { stdout := "", exited := none } =
        { stdout := "Jenkins 'prod' is not found\n", exited := some 1 }
      ∧ Execute "no env" none { stdout := "", exited := none } = { stdout := "", exited := none } :=
  ⟨((Execute_exit_status "no env" (some (errorsNew (notFoundMsg "prod")))
      { stdout := "", exited := none } rfl).1 _ rfl).1.trans (by decide),
    ((Execute_exit_status "no env" none { stdout := "", exited := none } rfl).2.1 rfl).1⟩

/-! ## `getTime` -/

theorem getTime_of_nonneg (n : Int) (h : 0 ≤ n) : getTime n = n / 1000000 := by
  unfold getTime Millisecond
  exact Int.tdiv_eq_ediv h (by decide)

theorem getTime_of_neg (n : Int) (h : n < 0) : getTime n = -((-n) / 1000000) := by
  unfold getTime Millisecond
  have h1 : n = -(-n) := by omega
  have h2 : (0 : Int) ≤ -n := by omega
  rw [h1, Int.neg_tdiv, Int.tdiv_eq_ediv h2 (by decide)]
  simp

/-- C9: `getTime` divides the clock reading in nanoseconds by 1000000, truncating; for
every reading `n ≥ 0` the result `r` satisfies `r * 1000000 ≤ n < (r + 1) * 1000000`, and
the conversion is monotone. -/
theorem getTime_truncates (n : Int) :
    getTime n = Int.tdiv n 1000000
      ∧ (0 ≤ n → getTime n * 1000000 ≤ n ∧ n < (getTime n + 1) * 1000000)
      ∧ (∀ n2 : Int, n ≤ n2 → getTime n ≤ getTime n2) := by
  refine ⟨rfl, ?_, ?_⟩
  · intro h
    rw [getTime_of_nonneg n h]
    omega
  · intro n2 hle
    by_cases h1 : 0 ≤ n
    · rw [getTime_of_nonneg n h1, getTime_of_nonneg n2 (by omega)]
      omega
    · by_cases h2 : 0 ≤ n2
      · rw [getTime_of_neg n (by omega), getTime_of_nonneg n2 h2]
        omega
      · rw [getTime_of_neg n (by omega), getTime_of_neg n2 (by omega)]
        omega

/-- C9 at the readings 1999999 and 2000000 nanoseconds. -/
theorem getTime_truncates_witness :
    getTime 1999999 = 1 ∧ getTime 1999999 * 1000000 ≤ 1999999
      ∧ (1999999 : Int) < (getTime 1999999 + 1) * 1000000
      ∧ getTime 1999999 ≤ getTime 2000000 :=
  ⟨by decide, ((getTime_truncates 1999999).2.1 (by decide)).1,
    ((getTime_truncates 1999999).2.1 (by decide)).2,
    (getTime_truncates 1999999).2.2 2000000 (by decide)⟩

/-! ## `runCompletionZsh` -/

theorem utf8ByteSize_eq_zero_iff (s : String) : s.utf8ByteSize = 0 ↔ s = "" := by
  cases s with
  | mk l =>
    cases l with
    | nil => exact ⟨fun _ => rfl, fun _ => rfl⟩
    | cons c cs =>
      constructor
      · intro h
        have hpos := Char.utf8Size_pos c
        simp only [String.utf8ByteSize, String.utf8ByteSize.go] at h
        omega
      · intro h
        exact absurd (congrArg String.data h) (by simp)

theorem effectiveBoilerPlate_eq (bp : String) :
    effectiveBoilerPlate bp = if bp = "" then defaultBoilerPlate else bp := by
  unfold effectiveBoilerPlate
  by_cases h : bp = ""
  · have hz : ("" : String).utf8ByteSize = 0 := rfl
    simp [h, hz]
  · have h0 : bp.utf8ByteSize ≠ 0 := fun h1 => h ((utf8ByteSize_eq_zero_iff bp).mp h1)
    simp [h, h0]

theorem defaultBoilerPlate_ne_empty : defaultBoilerPlate ≠ "" := by
  decide

theorem join_five (a b c d e : String) :
    String.join [a, b, c, d, e] = a ++ b ++ c ++ d ++ e := by
  simp [String.join]

theorem runCompletionZsh_of_ok {σ Cmd : Type} (w : Writer σ) (cobra : Cobra Cmd) (s0 : σ)
    (bp : String) (root : Cmd)
    (h : (w.Write (w.Write s0 zshHead).1 (effectiveBoilerPlate bp)).2.2 = none) :
    (runCompletionZsh w cobra s0 bp root).err = none
      ∧ (runCompletionZsh w cobra s0 bp root).out =
          w.feed s0 [zshHead, effectiveBoilerPlate bp, zshInitialization,
            (cobra.GenBashCompletion root).1, zshTail] := by
  unfold runCompletionZsh
  simp [h, Writer.feed]

theorem runCompletionZsh_of_fail {σ Cmd : Type} (w : Writer σ) (cobra : Cobra Cmd) (s0 : σ)
    (bp : String) (root : Cmd) (e : GoError)
    (h : (w.Write (w.Write s0 zshHead).1 (effectiveBoilerPlate bp)).2.2 = some e) :
    (runCompletionZsh w cobra s0 bp root).err = some e
      ∧ (runCompletionZsh w cobra s0 bp root).out =
          w.feed s0 [zshHead, effectiveBoilerPlate bp] := by
  unfold runCompletionZsh
  simp [h, Writer.feed]

theorem Writer.feed_recording {σ : Type} (w : Writer σ) (ps : List String) (s : σ)
    (l : List String) :
    w.recording.feed (s, l) ps = (w.feed s ps, l ++ ps) := by
  induction ps generalizing s l with
  | nil => simp [Writer.feed]
  | cons p t ih =>
    have hstep : w.recording.feed (s, l) (p :: t) =
        w.recording.feed ((w.Write s p).1, l ++ [p]) t := rfl
    have hstep2 : w.feed s (p :: t) = w.feed (w.Write s p).1 t := rfl
    rw [hstep, hstep2, ih]
    simp

theorem Writer.recording_answer {σ : Type} (w : Writer σ) (s0 : σ) (l : List String)
    (bp : String) :
    (w.recording.Write (w.recording.Write (s0, l) zshHead).1 (effectiveBoilerPlate bp)).2.2 =
      (w.Write (w.Write s0 zshHead).1 (effectiveBoilerPlate bp)).2.2 := rfl

theorem zshWrites_of_ok {σ Cmd : Type} (w : Writer σ) (cobra : Cobra Cmd) (s0 : σ)
    (bp : String) (root : Cmd)
    (h : (w.Write (w.Write s0 zshHead).1 (effectiveBoilerPlate bp)).2.2 = none) :
    zshWrites w cobra s0 bp root =
      [zshHead, effectiveBoilerPlate bp, zshInitialization,
        (cobra.GenBashCompletion root).1, zshTail] := by
  have hrec := (runCompletionZsh_of_ok w.recording cobra (s0, []) bp root
    ((Writer.recording_answer w s0 [] bp).trans h)).2
  unfold zshWrites
  rw [hrec, Writer.feed_recording]
  simp

theorem zshWrites_of_fail {σ Cmd : Type} (w : Writer σ) (cobra : Cobra Cmd) (s0 : σ)
    (bp : String) (root : Cmd) (e : GoError)
    (h : (w.Write (w.Write s0 zshHead).1 (effectiveBoilerPlate bp)).2.2 = some e) :
    zshWrites w cobra s0 bp root = [zshHead, effectiveBoilerPlate bp] := by
  have hrec := (runCompletionZsh_of_fail w.recording cobra (s0, []) bp root e
    ((Writer.recording_answer w s0 [] bp).trans h)).2
  unfold zshWrites
  rw [hrec, Writer.feed_recording]
  simp

theorem bufferWriter_feed (ps : List String) (b : String) :
    bufferWriter.feed b ps = b ++ String.join ps := by
  induction ps generalizing b with
  | nil => simp [Writer.feed, String.join]
  | cons p t ih =>
    have hstep : bufferWriter.feed b (p :: t) = bufferWriter.feed (b ++ p) t := rfl
    have hjoin : ∀ (l : List String) (a : String),
        List.foldl (fun r x => r ++ x) a l = a ++ List.foldl (fun r x => r ++ x) "" l := by
      intro l
      induction l with
      | nil => intro a; simp
      | cons x xs ihx =>
        intro a
        simp only [List.foldl_cons]
        rw [ihx (a ++ x), ihx ("" ++ x)]
        simp [String.append_assoc]
    rw [hstep, ih]
    simp only [String.join, List.foldl_cons]
    rw [hjoin t ("" ++ p)]
    simp [String.append_assoc]

/-- C7: for a writer whose writes all succeed, `runCompletionZsh` returns nil and the bytes
the writer receives are, in order, "#compdef jj\n", then the boilerplate
(`defaultBoilerPlate` when the given one is empty), then `zshInitialization`, then the
generated bash completion, then `zshTail`: the writer ends in the state reached by these
five writes, and a buffer ends holding its former content followed by exactly these bytes.
The output starts with "#compdef jj\n", the empty boilerplate gives the same run as
`defaultBoilerPlate`, and the bash completion stands between "<<'BASH_COMPLETION_EOF'\n"
and "\nBASH_COMPLETION_EOF\n". -/
theorem runCompletionZsh_output {σ Cmd : Type} (w : Writer σ) (cobra : Cobra Cmd) (s0 : σ)
    (bp : String) (root : Cmd) (hw : w.allSucceed) :
    (runCompletionZsh w cobra s0 bp root).err = none
      ∧ zshWritten w cobra s0 bp root =
          "#compdef jj\n" ++ (if bp = "" then defaultBoilerPlate else bp) ++ zshInitialization
            ++ (cobra.GenBashCompletion root).1 ++ zshTail
      ∧ (runCompletionZsh w cobra s0 bp root).out =
          w.feed s0 ["#compdef jj\n", if bp = "" then defaultBoilerPlate else bp,
            zshInitialization, (cobra.GenBashCompletion root).1, zshTail]
      ∧ (runCompletionZsh w cobra s0 bp root).out = w.feed s0 (zshWrites w cobra s0 bp root)
      ∧ (∀ b0 : String, (runCompletionZsh bufferWriter cobra b0 bp root).out =
          b0 ++ ("#compdef jj\n" ++ (if bp = "" then defaultBoilerPlate else bp)
            ++ zshInitialization ++ (cobra.GenBashCompletion root).1 ++ zshTail))
      ∧ (∃ rest, zshWritten w cobra s0 bp root = "#compdef jj\n" ++ rest)
      ∧ (zshWritten w cobra s0 "" root = zshWritten w cobra s0 defaultBoilerPlate root
          ∧ runCompletionZsh w cobra s0 "" root =
              runCompletionZsh w cobra s0 defaultBoilerPlate root)
      ∧ (∃ front back, zshWritten w cobra s0 bp root =
          front ++ "<<'BASH_COMPLETION_EOF'\n" ++ (cobra.GenBashCompletion root).1
            ++ "\nBASH_COMPLETION_EOF\n" ++ back) := by
  have hok : ∀ b : String,
      (w.Write (w.Write s0 zshHead).1 (effectiveBoilerPlate b)).2.2 = none := by
    intro b
    rw [hw]
  have hws : ∀ b : String, zshWrites w cobra s0 b root =
      ["#compdef jj\n", if b = "" then defaultBoilerPlate else b, zshInitialization,
        (cobra.GenBashCompletion root).1, zshTail] := by
    intro b
    rw [zshWrites_of_ok w cobra s0 b root (hok b), effectiveBoilerPlate_eq]
    rfl
  have hwr : ∀ b : String, zshWritten w cobra s0 b root =
      "#compdef jj\n" ++ (if b = "" then defaultBoilerPlate else b) ++ zshInitialization
        ++ (cobra.GenBashCompletion root).1 ++ zshTail := by
    intro b
    unfold zshWritten
    rw [hws b, join_five]
  have hout : ∀ b : String, (runCompletionZsh w cobra s0 b root).out =
      w.feed s0 ["#compdef jj\n", if b = "" then defaultBoilerPlate else b,
        zshInitialization, (cobra.GenBashCompletion root).1, zshTail] := by
    intro b
    rw [(runCompletionZsh_of_ok w cobra s0 b root (hok b)).2, effectiveBoilerPlate_eq]
    rfl
  have hbp : effectiveBoilerPlate "" = effectiveBoilerPlate defaultBoilerPlate := by
    rw [effectiveBoilerPlate_eq, effectiveBoilerPlate_eq]
    simp [defaultBoilerPlate_ne_empty]
  refine ⟨(runCompletionZsh_of_ok w cobra s0 bp root (hok bp)).1, hwr bp, hout bp, ?_, ?_,
    ?_, ⟨?_, ?_⟩, ?_⟩
  · rw [hws bp]
    exact hout bp
  · intro b0
    have hb : (bufferWriter.Write (bufferWriter.Write b0 zshHead).1
        (effectiveBoilerPlate bp)).2.2 = none := rfl
    rw [(runCompletionZsh_of_ok bufferWriter cobra b0 bp root hb).2, bufferWriter_feed,
      join_five, effectiveBoilerPlate_eq]
    rfl
  · refine ⟨(if bp = "" then defaultBoilerPlate else bp) ++ zshInitialization
      ++ (cobra.GenBashCompletion root).1 ++ zshTail, ?_⟩
    rw [hwr bp]
    simp only [String.append_assoc]
  · rw [hwr "", hwr defaultBoilerPlate]
    simp [defaultBoilerPlate_ne_empty]
  · unfold runCompletionZsh
    rw [hbp]
  · obtain ⟨body, hbody⟩ : ∃ body, zshInitialization = body ++ "<<'BASH_COMPLETION_EOF'\n" :=
      ⟨_, rfl⟩
    obtain ⟨back, hback⟩ : ∃ back, zshTail = "\nBASH_COMPLETION_EOF\n" ++ back := ⟨_, rfl⟩
    refine ⟨"#compdef jj\n" ++ (if bp = "" then defaultBoilerPlate else bp) ++ body, back, ?_⟩
    rw [hwr bp, hbody, hback]
    simp only [String.append_assoc]

/-- C7 at a buffer holding "old:", with the empty boilerplate. -/
theorem runCompletionZsh_output_witness :
    bufferWriter.allSucceed
      ∧ (runCompletionZsh bufferWriter sampleCobra "old:" "" ()).err = none
      ∧ zshWritten bufferWriter sampleCobra "old:" "" () =
          "#compdef jj\n" ++ (if "" = "" then defaultBoilerPlate else "") ++ zshInitialization
            ++ (sampleCobra.GenBashCompletion ()).1 ++ zshTail
      ∧ (runCompletionZsh bufferWriter sampleCobra "old:" "" ()).out =
          "old:" ++ ("#compdef jj\n" ++ (if "" = "" then defaultBoilerPlate else "")
            ++ zshInitialization ++ (sampleCobra.GenBashCompletion ()).1 ++ zshTail) :=
  ⟨fun _ _ => rfl,
    (runCompletionZsh_output bufferWriter sampleCobra "old:" "" () (fun _ _ => rfl)).1,
    (runCompletionZsh_output bufferWriter sampleCobra "old:" "" () (fun _ _ => rfl)).2.1,
    (runCompletionZsh_output bufferWriter sampleCobra "old:" "" ()
      (fun _ _ => rfl)).2.2.2.2.1 "old:"⟩

/-- C8: `runCompletionZsh` returns the error of the write of the boilerplate, so it fails if
and only if that write fails, whatever the other writes and the generation of the bash
completion report.  When that write fails only the head and the boilerplate have been
handed to the writer, which is left in the state after that write; otherwise all five
writes are made. -/
theorem runCompletionZsh_error {σ Cmd : Type} (w : Writer σ) (cobra : Cobra Cmd) (s0 : σ)
    (bp : String) (root : Cmd) :
    ((runCompletionZsh w cobra s0 bp root).err ≠ none ↔
        (w.Write (w.Write s0 zshHead).1 (effectiveBoilerPlate bp)).2.2 ≠ none)
      ∧ (runCompletionZsh w cobra s0 bp root).err =
          (w.Write (w.Write s0 zshHead).1 (effectiveBoilerPlate bp)).2.2
      ∧ ((w.Write (w.Write s0 zshHead).1 (effectiveBoilerPlate bp)).2.2 ≠ none →
          zshWrites w cobra s0 bp root = [zshHead, effectiveBoilerPlate bp]
          ∧ (runCompletionZsh w cobra s0 bp root).out =
              (w.Write (w.Write s0 zshHead).1 (effectiveBoilerPlate bp)).1)
      ∧ ((w.Write (w.Write s0 zshHead).1 (effectiveBoilerPlate bp)).2.2 = none →
          zshWrites w cobra s0 bp root =
            [zshHead, effectiveBoilerPlate bp, zshInitialization,
              (cobra.GenBashCompletion root).1, zshTail]
          ∧ (runCompletionZsh w cobra s0 bp root).out =
              w.feed s0 [zshHead, effectiveBoilerPlate bp, zshInitialization,
                (cobra.GenBashCompletion root).1, zshTail]) := by
  cases h : (w.Write (w.Write s0 zshHead).1 (effectiveBoilerPlate bp)).2.2 with
  | none =>
    have hr := runCompletionZsh_of_ok w cobra s0 bp root h
    have hz := zshWrites_of_ok w cobra s0 bp root h
    simp [hr.1, hr.2, hz]
  | some e =>
    have hr := runCompletionZsh_of_fail w cobra s0 bp root e h
    have hz := zshWrites_of_fail w cobra s0 bp root e h
    simp [hr.1, hr.2, hz, Writer.feed]

/-- C8 at a writer that accepts nothing, where the write of the boilerplate fails, and at a
writer that accepts five bytes, where the head and every write after the boilerplate fail
and so does the generation of the bash completion. -/
theorem runCompletionZsh_error_witness :
    (runCompletionZsh (limitedWriter 0) failingCobra "" "x" ()).err =
        some (GoError.other 0 "short write")
      ∧ zshWrites (limitedWriter 0) failingCobra "" "x" () = ["#compdef jj\n", "x"]
      ∧ (runCompletionZsh (limitedWriter 5) failingCobra "" "x" ()).err = none :=
  ⟨(runCompletionZsh_error (limitedWriter 0) failingCobra "" "x" ()).2.1.trans (by decide),
    ((runCompletionZsh_error (limitedWriter 0) failingCobra "" "x" ()).2.2.1 (by decide)).1.trans
      (by decide),
    (runCompletionZsh_error (limitedWriter 5) failingCobra "" "x" ()).2.1.trans (by decide)⟩

end JenkinsJobCli
